/-
  Verification of the IncidentAnalyzer_SOPGenerator core against its
  natural-language specification.

  The Python source is shallowly embedded:
  * Python strings are modelled as `List Char` (`Str`), so that every string
    operation is a structurally recursive, kernel-evaluable function.
  * Incident dictionaries become the `Incident` structure; a field that may be
    absent from the dict is an `Option Str` (Python `dict.get` with/without a
    default is modelled by `Option.getD`).
  * The external sentence-transformer model and the HDBSCAN clusterer are
    opaque capabilities: their outputs (embedding vectors, similarity vectors,
    cluster labels) are parameters of the embedded functions, and everything
    the repository computes *from* those outputs is modelled faithfully.
-/
import Mathlib

/-- Python strings, modelled as lists of characters. -/
abbrev Str := List Char

/-- View a Lean string literal as a `Str`. -/
def str (s : String) : Str := s.data

/-- The whitespace characters recognised by Python `str.strip()` /
`str.split()` (restricted to the ones that can occur in this code base). -/
def isPySpace (c : Char) : Bool :=
  c = ' ' || c = '\t' || c = '\n' || c = '\r'

/-- Python `s.lower()` (ASCII). -/
def lowerStr (s : Str) : Str := s.map Char.toLower

/-- Python `s.lstrip(chars)`. -/
def pyLstrip (chars : Str) (s : Str) : Str := s.dropWhile (· ∈ chars)

/-- Python `s.rstrip(chars)`. -/
def pyRstrip (chars : Str) (s : Str) : Str :=
  (s.reverse.dropWhile (· ∈ chars)).reverse

/-- Python `s.strip()` (no argument: strip whitespace from both ends). -/
def pyStrip (s : Str) : Str :=
  ((s.dropWhile isPySpace).reverse.dropWhile isPySpace).reverse

/-- Helper for `pySplitWs`. -/
def splitWsAux : Str → Str → List Str
  | [], acc => if acc = [] then [] else [acc.reverse]
  | c :: rest, acc =>
    if isPySpace c then
      if acc = [] then splitWsAux rest [] else acc.reverse :: splitWsAux rest []
    else splitWsAux rest (c :: acc)

/-- Python `s.split()` (no argument: split on whitespace runs, no empties). -/
def pySplitWs (s : Str) : List Str := splitWsAux s []

/-- Fuel-driven worker for `splitOnL`; the fuel starts at `s.length + 1`, which
is always enough since every step consumes at least one character. -/
def splitOnFuel (sep : Str) : Nat → Str → Str → List Str
  | 0, s, acc => [acc.reverse ++ s]
  | _ + 1, [], acc => [acc.reverse]
  | fuel + 1, c :: rest, acc =>
    if sep ≠ [] ∧ sep.isPrefixOf (c :: rest) then
      acc.reverse :: splitOnFuel sep fuel ((c :: rest).drop sep.length) []
    else splitOnFuel sep fuel rest (c :: acc)

/-- Python `s.split(sep)` for a non-empty separator string `sep`. -/
def splitOnL (sep : Str) (s : Str) : List Str :=
  splitOnFuel sep (s.length + 1) s []

/-- Python `sep.join(parts)`. -/
def joinSep (sep : Str) : List Str → Str
  | [] => []
  | [x] => x
  | x :: y :: rest => x ++ sep ++ joinSep sep (y :: rest)

/-- Python `s[0].upper() + s[1:]` guarded by `if s` (capitalise first char). -/
def capitalizeFirst : Str → Str
  | [] => []
  | c :: rest => c.toUpper :: rest

/-- Python truthy `dict.get(key, "")`: an absent (or `None`) field reads as the
empty string. -/
def getS (o : Option Str) : Str := o.getD []

example : str "ab" = ['a', 'b'] := by decide
example : pySplitWs (str "  a bc ") = [str "a", str "bc"] := by decide
example : splitOnL (str ". ") (str "x y. z.") = [str "x y", str "z."] := by decide
example : pyRstrip (str ".") (str "ab..") = str "ab" := by decide
example : lowerStr (str "AbC") = str "abc" := by decide

/-! ## Data model

An incident record (`src/src/...`: incidents are Python dicts).  A field holds
`none` when the key is absent from the dict, `some s` when present with string
value `s`; `dict.get(k, "")` is `getS`, `dict.get(k)` is the `Option` itself. -/

structure Incident where
  number : Option Str
  short_description : Option Str
  description : Option Str
  resolution_notes : Option Str
  close_notes : Option Str
  category : Option Str
  subcategory : Option Str
  priority : Option Str
deriving DecidableEq

/-- Python `incident.get("resolution_notes", "") or incident.get("close_notes", "")`:
the resolution text, with `close_notes` as fallback when `resolution_notes` is
absent or empty. -/
def resolutionText (incident : Incident) : Str :=
  let r := getS incident.resolution_notes
  if r ≠ [] then r else getS incident.close_notes

/-! ## SOP generator (`src/src/sop_generation/generator.py`) -/

/-- One element of the `resolutions` list built by
`SOPGenerator._extract_sop_components` (a dict with keys `incident_number`,
`resolution`, `priority`; note it never carries a `problem` key). -/
structure ResData where
  incident_number : Option Str
  resolution : Str
  priority : Option Str
deriving DecidableEq

/-- The past-tense → imperative verb table of
`SOPGenerator._convert_to_imperative`, in source (dict-insertion) order. -/
def verb_conversions : List (Str × Str) :=
  [ (str "restarted", str "Restart"), (str "reset", str "Reset"),
    (str "checked", str "Check"), (str "verified", str "Verify"),
    (str "updated", str "Update"), (str "configured", str "Configure"),
    (str "installed", str "Install"), (str "removed", str "Remove"),
    (str "disabled", str "Disable"), (str "enabled", str "Enable"),
    (str "replaced", str "Replace"), (str "tested", str "Test"),
    (str "ran", str "Run"), (str "opened", str "Open"),
    (str "closed", str "Close"), (str "cleared", str "Clear"),
    (str "recreated", str "Recreate"), (str "increased", str "Increase"),
    (str "decreased", str "Decrease"), (str "set", str "Set"),
    (str "changed", str "Change"), (str "added", str "Add"),
    (str "deleted", str "Delete"), (str "modified", str "Modify"),
    (str "reviewed", str "Review"), (str "rebuilt", str "Rebuild"),
    (str "reconfigured", str "Reconfigure"), (str "repaired", str "Repair"),
    (str "fixed", str "Fix"), (str "resolved", str "Resolve"),
    (str "ensured", str "Ensure"), (str "rebooted", str "Reboot"),
    (str "downloaded", str "Download"), (str "uploaded", str "Upload"),
    (str "adjusted", str "Adjust"), (str "diagnosed", str "Diagnose"),
    (str "identified", str "Identify"), (str "confirmed", str "Confirm"),
    (str "advised", str "Advise"), (str "implemented", str "Implement"),
    (str "created", str "Create"), (str "sent", str "Send"),
    (str "unlocked", str "Unlock"), (str "logged", str "Log"),
    (str "connected", str "Connect"), (str "disconnected", str "Disconnect"),
    (str "found", str "Find"), (str "located", str "Locate"),
    (str "navigated", str "Navigate"), (str "selected", str "Select"),
    (str "clicked", str "Click"), (str "entered", str "Enter"),
    (str "typed", str "Type"), (str "executed", str "Execute"),
    (str "performed", str "Perform"), (str "applied", str "Apply"),
    (str "activated", str "Activate"), (str "deactivated", str "Deactivate") ]

/-- A regex word character (`\w` for the ASCII text this code handles). -/
def isWordChar (c : Char) : Bool := c.isAlphanum || c = '_'

/-- Models `re.match(r'\b' + past + r'\b', lowered)`: `lowered` starts with the
word `past` (the verbs all start and end in letters, so the leading boundary
demands a word character at position 0 and the trailing boundary demands that
the character after `past`, if any, is not a word character). -/
def verbMatchesAtStart (past lowered : Str) : Bool :=
  (match lowered with
   | [] => false
   | c :: _ => isWordChar c) &&
  past.isPrefixOf lowered &&
  (match lowered.drop past.length with
   | [] => true
   | c :: _ => !isWordChar c)

/-- Model of `SOPGenerator._convert_to_imperative` (generator.py lines 187-288). -/
def convert_to_imperative (text0 : Str) : Str :=
  let text := pyStrip text0
  let words := pySplitWs text
  match words with
  | [] => text
  | w0 :: rest =>
    let first_word_lower := pyRstrip (str ".,;:") (lowerStr w0)
    let result :=
      match (verb_conversions.find? (fun p => p.1 = first_word_lower)).map Prod.snd with
      | some imperative => joinSep (str " ") (imperative :: rest)
      | none =>
        -- `re.sub(pattern, imperative, result, count=1, IGNORECASE)` fires only
        -- when `re.match` succeeded on the lowered text, so it rewrites the
        -- leading occurrence, i.e. the first `past.length` characters.
        match verb_conversions.find? (fun p => verbMatchesAtStart p.1 (lowerStr text)) with
        | some p => p.2 ++ text.drop p.1.length
        | none => text
    let result := capitalizeFirst result
    let result := pyRstrip (str ".") result
    -- `if result and not result.endswith(('.', '!', '?')): result += '.'`
    if result ≠ [] ∧ result.getLast? ≠ some '.' ∧ result.getLast? ≠ some '!' ∧
        result.getLast? ≠ some '?' then
      result ++ ['.']
    else result

/-- The step-marker line prefixes recognised by
`SOPGenerator._extract_resolution_steps` (first pass). -/
def stepMarkers : List Str :=
  [ str "1.", str "2.", str "3.", str "4.", str "5.", str "6.", str "7.",
    str "8.", str "9.", str "0.", str "-", str "*", str "•", str "▪", str "○" ]

/-- The character set of `line.lstrip('0123456789.-*•▪○) \t')`. -/
def markerChars : Str := str "0123456789.-*•▪○) \t"

/-- First pass of `_extract_resolution_steps` (lines 123-134): collect
marker-prefixed lines as steps. -/
def pass1Steps (resolutions : List ResData) : List Str :=
  resolutions.foldl (fun acc res_data =>
    let lines := splitOnL (str "\n") res_data.resolution
    lines.foldl (fun acc line0 =>
      let line := pyStrip line0
      if stepMarkers.any (fun p => p.isPrefixOf line) then
        let step := pyLstrip markerChars line
        if 10 < step.length then acc ++ [convert_to_imperative step] else acc
      else acc) acc) []

/-- The sentence delimiters tried (in order) by the second pass. -/
def sentenceDelims : List Str := [str ". ", str ".\n", str "; ", str ";\n"]

/-- Python `needle in hay` (substring containment). -/
def containsSub (needle : Str) : Str → Bool
  | [] => needle = []
  | c :: rest => needle.isPrefixOf (c :: rest) || containsSub needle rest

/-- The sentence-splitting part of the second pass (lines 142-149): split on
the first applicable delimiter; an unsplittable text stays whole. -/
def splitSentences (resolution : Str) : List Str :=
  let sentences :=
    match sentenceDelims.find? (fun d => containsSub d resolution) with
    | some delimiter =>
      ((splitOnL delimiter resolution).map pyStrip).filter (· ≠ [])
    | none => []
  if sentences = [] then [resolution] else sentences

/-- Second pass of `_extract_resolution_steps` (lines 137-157): split each
resolution into sentences and keep the sufficiently long ones as steps. -/
def pass2Steps (resolutions : List ResData) : List Str :=
  resolutions.foldl (fun acc res_data =>
    (splitSentences res_data.resolution).foldl (fun acc sentence0 =>
      let sentence := pyRstrip (str ".") (pyStrip sentence0)
      if sentence ≠ [] ∧ 15 < sentence.length then
        let imperative_step := convert_to_imperative sentence
        if imperative_step ≠ [] then acc ++ [imperative_step] else acc
      else acc) acc) []

/-- Third pass of `_extract_resolution_steps` (lines 160-172): the degenerate
five-step generic template built around the first resolution text.  The
`resolutions` dicts carry no `problem` key, so
`resolutions[0].get('problem', 'the reported issue')` is always the default. -/
def fallbackSteps (resolutions : List ResData) : List Str :=
  match resolutions.head? with
  | none => []
  | some r0 =>
    let resolution_text := r0.resolution
    let problem := str "the reported issue"
    if resolution_text ≠ [] ∧ 20 < resolution_text.length then
      [ str "Identify and verify the symptoms of " ++ problem,
        str "Follow these resolution steps: " ++ convert_to_imperative resolution_text,
        str "Test the solution to confirm the issue is resolved",
        str "Verify all affected systems/services are functioning normally",
        str "Document the resolution and close the incident ticket" ]
    else []

/-- The candidate steps accumulated by `_extract_resolution_steps` before
deduplication: the second pass runs only when the first found nothing, the
fallback only when both found nothing. -/
def allSteps (resolutions : List ResData) : List Str :=
  if pass1Steps resolutions ≠ [] then pass1Steps resolutions
  else if pass2Steps resolutions ≠ [] then pass2Steps resolutions
  else fallbackSteps resolutions

/-- The deduplication key: `step.lower()[:50]` (line 180). -/
def stepDedupKey (step : Str) : Str := (lowerStr step).take 50

/-- One iteration of the deduplication loop: `p.1` is the `seen_patterns` set,
`p.2` the `unique_steps` accumulator. -/
def dedupStep (p : List Str × List Str) (step : Str) : List Str × List Str :=
  let pattern := stepDedupKey step
  if pattern ∈ p.1 then p else (pattern :: p.1, p.2 ++ [step])

/-- The deduplication stage of `_extract_resolution_steps` (lines 174-185):
a first-occurrence filter on `stepDedupKey`, carried out with the
`seen_patterns` set and `unique_steps` accumulator of the source. -/
def dedupSteps (all_steps : List Str) : List Str :=
  (all_steps.foldl dedupStep ([], [])).2

/-- Model of `SOPGenerator._extract_resolution_steps` (generator.py lines 119-185). -/
def extract_resolution_steps (resolutions : List ResData) : List Str :=
  (dedupSteps (allSteps resolutions)).take 20

example :
    convert_to_imperative (str "Checked mailbox quota") = str "Check mailbox quota." := by decide

/-- The cluster-analysis dict consumed by the SOP generator, with the keys
`_extract_sop_components` reads (each read with a default). -/
structure Analysis where
  common_categories : List (Str × Nat)
  priority_distribution : List (Str × Nat)
  avg_resolution_time : ℚ
  representative_incident : Option Str
deriving DecidableEq

/-- The components assembled by `SOPGenerator._extract_sop_components`
(generator.py lines 65-117); the markdown rendering of these components
(`_generate_markdown_sop`, pure text formatting around a wall-clock timestamp)
is not modelled. -/
structure SopData where
  problems : List Str
  symptoms : List Str
  resolution_steps : List Str
  category : Str
  incident_count : Nat
  priority_distribution : List (Str × Nat)
  avg_resolution_time : ℚ
  representative_incident : Option Str
  related_incidents : List (Option Str)
deriving DecidableEq

/-- Insertion-order deduplication, modelling the Python `set` accumulation of
`problems`/`symptoms`.  (CPython sets iterate in hash order, which for strings
is not reproducible across processes; this model fixes first-insertion order.
No claim depends on the order of these two lists.) -/
def dedupList (l : List Str) : List Str :=
  l.foldl (fun acc x => if x ∈ acc then acc else acc ++ [x]) []

/-- The `resolutions` list built in `_extract_sop_components` (lines 77-98):
one entry per incident having a non-empty resolution text. -/
def collectResolutions (incidents : List Incident) : List ResData :=
  incidents.foldl (fun acc incident =>
    let resolution := resolutionText incident
    if resolution ≠ [] then
      acc ++ [⟨incident.number, resolution, incident.priority⟩]
    else acc) []

/-- Python `max(categories.items(), key=lambda x: x[1])`: the first pair with
maximal count (Python `max` keeps the earlier element on ties). -/
def maxBySnd : List (Str × Nat) → Option (Str × Nat)
  | [] => none
  | x :: rest => some (rest.foldl (fun best y => if best.2 < y.2 then y else best) x)

/-- Model of `SOPGenerator._extract_sop_components` (generator.py lines 65-117). -/
def extract_sop_components (incidents : List Incident) (analysis : Analysis) :
    SopData :=
  let problems :=
    dedupList ((incidents.map (fun i => getS i.short_description)).filter (· ≠ []))
  let symptoms :=
    dedupList (((incidents.map (fun i => getS i.description)).filter (· ≠ [])).map
      (·.take 200))
  let resolutions := collectResolutions incidents
  let common_steps := extract_resolution_steps resolutions
  let primary_category :=
    match maxBySnd analysis.common_categories with
    | some p => p.1
    | none => str "General"
  { problems := problems.take 5
    symptoms := symptoms.take 5
    resolution_steps := common_steps
    category := primary_category
    incident_count := incidents.length
    priority_distribution := analysis.priority_distribution
    avg_resolution_time := analysis.avg_resolution_time
    representative_incident := analysis.representative_incident
    related_incidents := (incidents.take 10).map (·.number) }

/-- Model of `SOPGenerator.generate_sop` (generator.py lines 30-63): `none` models the
Python `None` returned below the minimum cluster size; `some` wraps the SOP
components that otherwise get rendered to the output document. -/
def generate_sop (min_incidents : Nat) (cluster_id : Int) (incidents : List Incident)
    (analysis : Analysis) : Option SopData :=
  let _ := cluster_id   -- used only in the unmodelled markdown rendering
  if incidents.length < min_incidents then none
  else some (extract_sop_components incidents analysis)

/-! ## Incident categorizer (`src/src/categorization/categorizer.py`) -/

/-- The per-incident text built by `IncidentCategorizer._extract_features`
(categorizer.py lines 105-151), by successive conditional appends to `parts`
exactly as in the source. -/
def featureText (incident : Incident) : Str :=
  let parts : List Str := []
  let short_desc := getS incident.short_description
  let parts := if short_desc ≠ [] then parts ++ [str "Problem: " ++ short_desc] else parts
  let desc := getS incident.description
  let parts := if desc ≠ [] then parts ++ [str "Details: " ++ desc] else parts
  let resolution := resolutionText incident
  let parts := if resolution ≠ [] then parts ++ [str "Resolution: " ++ resolution] else parts
  let category := getS incident.category
  let subcategory := getS incident.subcategory
  let parts := if category ≠ [] then parts ++ [str "Category: " ++ category] else parts
  let parts := if subcategory ≠ [] then parts ++ [str "Subcategory: " ++ subcategory] else parts
  if parts ≠ [] then joinSep (str " | ") parts else str "Unknown incident"

/-- Model of `IncidentCategorizer._extract_features` over a batch. -/
def extract_features (incidents : List Incident) : List Str :=
  incidents.map featureText

/-- The embedding text as the specification words it (spec section 4.2 and
claim C9): the labeled segments in fixed order, segments with an empty source
omitted, joined by the separator, with the sentinel phrase when every segment
is empty.  To be compared with the source-derived `featureText`. -/
def spec_embedding_text (incident : Incident) : Str :=
  let segments : List (Str × Str) :=
    [ (str "Problem: ", getS incident.short_description),
      (str "Details: ", getS incident.description),
      (str "Resolution: ", resolutionText incident),
      (str "Category: ", getS incident.category),
      (str "Subcategory: ", getS incident.subcategory) ]
  let parts := (segments.filter (fun p => p.2 ≠ [])).map (fun p => p.1 ++ p.2)
  if parts = [] then str "Unknown incident" else joinSep (str " | ") parts

/-- One step of the cluster-grouping loop of
`IncidentCategorizer.categorize_incidents` (lines 88-96): append `inc` to the
member list of cluster `label`, creating the cluster at the end on first
sight (Python dicts preserve insertion order). -/
def addToCluster : List (Int × List Incident) → Int → Incident →
    List (Int × List Incident)
  | [], label, inc => [(label, [inc])]
  | (k, members) :: rest, label, inc =>
    if k = label then (k, members ++ [inc]) :: rest
    else (k, members) :: addToCluster rest label inc

/-- One iteration of the grouping loop: skip noise (`label == -1`), otherwise
add the incident to its label's cluster. -/
def catStep (clusters : List (Int × List Incident)) (p : Incident × Int) :
    List (Int × List Incident) :=
  if p.2 = -1 then clusters else addToCluster clusters p.2 p.1

/-- The grouping phase of `IncidentCategorizer.categorize_incidents`
(lines 84-103), applied to the batch zipped with the labels that
`HDBSCAN.fit_predict` (an external capability) produced for it: incidents
labelled `-1` (noise) are skipped, the rest are grouped by label. -/
def categorizeGroups (pairs : List (Incident × Int)) : List (Int × List Incident) :=
  pairs.foldl catStep []

/-- The noise residual of the same loop: the incidents the grouping skipped
(the code only counts them; the claims quantify over them). -/
def noiseIncidents (pairs : List (Incident × Int)) : List Incident :=
  (pairs.filter (fun p => p.2 = -1)).map Prod.fst

/-- Dot product of two embedding vectors (`np.dot` on equal-length vectors). -/
def dotL (a b : List ℚ) : ℚ := (List.zipWith (· * ·) a b).sum

/-- Componentwise sum of equal-length vectors. -/
def vecSum : List (List ℚ) → List ℚ
  | [] => []
  | [v] => v
  | v :: w :: rest => List.zipWith (· + ·) v (vecSum (w :: rest))

/-- Models `np.mean(vectors, axis=0)`: componentwise arithmetic mean. -/
def vecMean (vectors : List (List ℚ)) : List ℚ :=
  (vecSum vectors).map (· / (vectors.length : ℚ))

/-- Models `np.argmax`: index of the first maximal element (`0` on the empty list,
where numpy would raise). -/
def argmaxAux : List ℚ → Nat → Nat → ℚ → Nat
  | [], _, best, _ => best
  | x :: rest, i, best, bestVal =>
    if bestVal < x then argmaxAux rest (i + 1) i x
    else argmaxAux rest (i + 1) best bestVal

/-- Models `np.argmax` over a similarity list. -/
def argmaxIdx : List ℚ → Nat
  | [] => 0
  | x :: rest => argmaxAux rest 1 0 x

/-- The `indices` loop of `_get_representative_incident` (lines 231-235): the
positions of the batch (`self.incidents`) whose incident is `in` the cluster
member list (Python dict equality). -/
def clusterIndices (batch incidents : List Incident) : List Nat :=
  ((batch.enum).filter (fun p => decide (p.2 ∈ incidents))).map Prod.fst

/-- Model of `cluster_embeddings = self.embeddings[indices]` (line 241). -/
def clusterEmbeddings (embs : List (List ℚ)) (indices : List Nat) :
    List (List ℚ) :=
  indices.map (fun i => embs.getD i [])

/-- Lines 242-246: centroid, similarities, and `closest_idx = np.argmax`. -/
def closestIdx (embs : List (List ℚ)) (indices : List Nat) : Nat :=
  argmaxIdx ((clusterEmbeddings embs indices).map
    (fun e => dotL e (vecMean (clusterEmbeddings embs indices))))

/-- Model of `IncidentCategorizer._get_representative_incident` (categorizer.py lines
222-248).  `batch` is `self.incidents` and `embeddings` is `self.embeddings`
(`none` before any categorization run); `incidents` is the cluster member
list.  The final `incidents[closest_idx]` is Python list indexing, which
raises when out of range; that (unreachable for clusters produced by
`categorize_incidents` on a duplicate-free batch) is modelled as `none`,
like the empty-dict returns. -/
def get_representative_incident (batch : List Incident)
    (embeddings : Option (List (List ℚ))) (incidents : List Incident) :
    Option Incident :=
  match embeddings with
  | none => none
  | some embs =>
    if incidents = [] then none
    else if clusterIndices batch incidents = [] then incidents.head?
    else incidents.get? (closestIdx embs (clusterIndices batch incidents))

/-- The `representative_incident` entry computed by
`IncidentCategorizer.analyze_cluster` (line 194):
`representative.get("number") if representative else None`. -/
def analyze_cluster_representative (batch : List Incident)
    (embeddings : Option (List (List ℚ))) (incidents : List Incident) :
    Option Str :=
  match get_representative_incident batch embeddings incidents with
  | none => none
  | some representative => representative.number

/-! ## RAG resolution finder (`src/src/rag/resolution_finder.py`)

The in-memory (non-ChromaDB) path is modelled.  The sentence-transformer
encoding of the query and of the knowledge base is an external capability;
the cosine-similarity row `cosine_similarity(query_embedding,
self.embeddings_cache)[0]` it determines is the parameter `sims` (one entry
per knowledge-base incident). -/

/-- Insert an index into a descending-by-similarity index list (helper for
`argsortDesc`). -/
def insertDesc (sims : List ℚ) (i : Nat) : List Nat → List Nat
  | [] => [i]
  | j :: rest =>
    if sims.getD j 0 ≤ sims.getD i 0 then i :: j :: rest
    else j :: insertDesc sims i rest

/-- Models `np.argsort(similarities)[::-1]`: the indices of `sims`, sorted by
descending similarity.  (numpy's quicksort leaves the relative order of tied
entries unspecified; this model fixes one deterministic order.  All concrete
inputs used below have pairwise distinct similarities, and every property
proved is independent of the tie order.) -/
def argsortDesc (sims : List ℚ) : List Nat :=
  (List.range sims.length).foldr (insertDesc sims) []

/-- A knowledge-base incident together with the `similarity_score` attached to
the returned copy. -/
structure Scored where
  incident : Incident
  similarity_score : ℚ
deriving DecidableEq

/-- One iteration of the result loop of `find_similar_incidents`:
`similarity >= min_similarity` first, then the optional case-insensitive
category filter. -/
def fsiStep (kb : List Incident) (sims : List ℚ) (category : Option Str)
    (min_similarity : ℚ) (results : List Scored) (idx : Nat) : List Scored :=
  if min_similarity ≤ sims.getD idx 0 then
    match kb.get? idx with
    | none => results
    | some incident =>
      match category with
      | none => results ++ [⟨incident, sims.getD idx 0⟩]
      | some c =>
        if lowerStr (getS incident.category) = lowerStr c then
          results ++ [⟨incident, sims.getD idx 0⟩]
        else results
  else results

/-- Model of `ResolutionFinder.find_similar_incidents`, in-memory path
(resolution_finder.py lines 132-157): rank the whole index by similarity,
take the `top_k` best, then keep those that clear `min_similarity` and (when a
category was requested) whose category matches case-insensitively. -/
def find_similar_incidents (kb : List Incident) (sims : List ℚ)
    (category : Option Str) (top_k : Nat) (min_similarity : ℚ) : List Scored :=
  if kb = [] then []
  else
    let top_indices := (argsortDesc sims).take top_k
    top_indices.foldl (fsiStep kb sims category min_similarity) []

/-- Model of `ResolutionFinder._create_combined_resolution` (lines 229-250). -/
def create_combined_resolution (incidents : List Scored) : Str :=
  match incidents with
  | [] => []
  | first :: rest =>
    let base_resolution := getS first.incident.resolution_notes
    match rest with
    | [] => base_resolution
    | second :: _ =>
      if mkRat 8 10 < second.similarity_score then
        base_resolution ++ str "\n\n[Note: Based on " ++
          (Nat.repr incidents.length).data ++ str " similar resolved incidents]"
      else base_resolution

/-- One entry of the `resolutions` list built in
`ResolutionFinder.suggest_resolution` (lines 198-211). -/
structure ResEntry where
  incident_number : Str
  resolution : Str
  similarity : ℚ
  category : Str
  has_resolution : Bool
deriving DecidableEq

/-- The response dict of `ResolutionFinder.suggest_resolution`.  The failure
branch fills `success`, `message`, `suggested_resolution` (as `None`) and an
empty `source_incidents` list; the success branch fills `success`,
`suggested_resolution`, `primary_source` (incident number, similarity,
resolution), `alternative_resolutions` and `confidence`.  Keys absent from a
branch are `none`/`[]` here. -/
structure SuggestionResult where
  success : Bool
  message : Option Str
  suggested_resolution : Option Str
  primary_source : Option (Str × ℚ × Str)
  alternative_resolutions : List ResEntry
  confidence : Option ℚ
deriving DecidableEq

/-- Model of `ResolutionFinder.suggest_resolution` (resolution_finder.py lines
159-227).  The `full_description` string built from problem text, symptoms
and category feeds only the external query encoder, which the parameter
`sims` already accounts for; `category` is still passed down as the retrieval
filter exactly as in the source. -/
def suggest_resolution (kb : List Incident) (sims : List ℚ)
    (category : Option Str) : SuggestionResult :=
  let similar_incidents := find_similar_incidents kb sims category 5 (mkRat 3 10)
  match similar_incidents with
  | [] =>
    { success := false
      message := some (str "No similar past incidents found")
      suggested_resolution := none
      primary_source := none
      alternative_resolutions := []
      confidence := none }
  | top_match :: _ =>
    let resolutions := similar_incidents.map (fun inc =>
      let resolution_text := getS inc.incident.resolution_notes
      let resolution_text :=
        if resolution_text = [] ∨ resolution_text.length < 20 then
          str "Similar incident found: " ++
            inc.incident.description.getD (str "No details available")
        else resolution_text
      { incident_number := inc.incident.number.getD (str "Unknown")
        resolution := resolution_text
        similarity := inc.similarity_score
        category := inc.incident.category.getD (str "Unknown")
        has_resolution := getS inc.incident.resolution_notes ≠ [] : ResEntry })
    let suggested_resolution := create_combined_resolution similar_incidents
    { success := true
      message := none
      suggested_resolution := some suggested_resolution
      primary_source := some
        (top_match.incident.number.getD (str "Unknown"),
         top_match.similarity_score,
         match resolutions with
         | r :: _ => r.resolution
         | [] => [])
      alternative_resolutions := (resolutions.drop 1).take 3
      confidence := some top_match.similarity_score }

/-! ## Lemmas: the deduplication stage -/

/-- Structural companion of the dedup fold: the `unique_steps` list produced
from a given `seen_patterns` set. -/
def dedupRec (seen : List Str) : List Str → List Str
  | [] => []
  | x :: rest =>
    if stepDedupKey x ∈ seen then dedupRec seen rest
    else x :: dedupRec (stepDedupKey x :: seen) rest

theorem dedupFold_eq (l : List Str) : ∀ seen acc : List Str,
    (l.foldl dedupStep (seen, acc)).2 = acc ++ dedupRec seen l := by
  induction l with
  | nil => intro seen acc; simp [dedupRec]
  | cons x rest ih =>
    intro seen acc
    by_cases h : stepDedupKey x ∈ seen
    · simp [List.foldl, dedupStep, dedupRec, h, ih]
    · simp [List.foldl, dedupStep, dedupRec, h, ih]

theorem dedupSteps_eq_dedupRec (l : List Str) : dedupSteps l = dedupRec [] l := by
  simp [dedupSteps, dedupFold_eq]

theorem dedupRec_key_not_seen :
    ∀ (l seen : List Str) (y : Str), y ∈ dedupRec seen l → stepDedupKey y ∉ seen := by
  intro l
  induction l with
  | nil => intro seen y hy; simp [dedupRec] at hy
  | cons x rest ih =>
    intro seen y hy
    by_cases h : stepDedupKey x ∈ seen
    · rw [dedupRec, if_pos h] at hy
      exact ih seen y hy
    · rw [dedupRec, if_neg h] at hy
      rcases List.mem_cons.mp hy with hy1 | hy1
      · subst hy1; exact h
      · have := ih _ y hy1
        intro hc
        exact this (List.mem_cons_of_mem _ hc)

theorem dedupRec_pairwise (l : List Str) : ∀ seen : List Str,
    (dedupRec seen l).Pairwise (fun a b => stepDedupKey a ≠ stepDedupKey b) := by
  induction l with
  | nil => intro seen; simp [dedupRec]
  | cons x rest ih =>
    intro seen
    by_cases h : stepDedupKey x ∈ seen
    · rw [dedupRec, if_pos h]; exact ih seen
    · rw [dedupRec, if_neg h]
      refine List.Pairwise.cons ?_ (ih _)
      intro y hy
      have := dedupRec_key_not_seen rest _ y hy
      intro hc
      exact this (by rw [← hc]; exact List.mem_cons_self _ _)

theorem dedupSteps_ne_nil (x : Str) (rest : List Str) :
    dedupSteps (x :: rest) ≠ [] := by
  rw [dedupSteps_eq_dedupRec, dedupRec, if_neg (List.not_mem_nil _)]
  simp

/-- The spec-side reading of the dedup stage, as amended: keep the first
variant of each dedup key, in first-occurrence order. -/
def firstOccByKey : List Str → List Str
  | [] => []
  | x :: rest =>
    x :: firstOccByKey (rest.filter (fun y => decide (stepDedupKey y ≠ stepDedupKey x)))
termination_by l => l.length
decreasing_by
  simp only [List.length_cons]
  exact Nat.lt_succ_of_le (List.length_filter_le _ _)

theorem dedupRec_congr :
    ∀ (l seen1 seen2 : List Str), (∀ a, a ∈ seen1 ↔ a ∈ seen2) →
      dedupRec seen1 l = dedupRec seen2 l := by
  intro l
  induction l with
  | nil => intro seen1 seen2 _; simp [dedupRec]
  | cons x rest ih =>
    intro seen1 seen2 hiff
    by_cases h : stepDedupKey x ∈ seen1
    · rw [dedupRec, if_pos h, dedupRec, if_pos ((hiff _).mp h)]
      exact ih seen1 seen2 hiff
    · rw [dedupRec, if_neg h, dedupRec, if_neg (fun hc => h ((hiff _).mpr hc))]
      refine congrArg _ (ih _ _ ?_)
      intro a
      simp only [List.mem_cons]
      constructor
      · rintro (rfl | ha)
        · exact Or.inl rfl
        · exact Or.inr ((hiff a).mp ha)
      · rintro (rfl | ha)
        · exact Or.inl rfl
        · exact Or.inr ((hiff a).mpr ha)

theorem dedupRec_cons_seen (k : Str) :
    ∀ (l seen : List Str),
      dedupRec (k :: seen) l =
        dedupRec seen (l.filter (fun y => decide (stepDedupKey y ≠ k))) := by
  intro l
  induction l with
  | nil => intro seen; simp [dedupRec]
  | cons y rest ih =>
    intro seen
    by_cases hk : stepDedupKey y = k
    · have hmem : stepDedupKey y ∈ k :: seen := by simp [hk]
      rw [dedupRec, if_pos hmem, List.filter_cons_of_neg (by simp [hk])]
      exact ih seen
    · rw [List.filter_cons_of_pos (by simp [hk])]
      by_cases hs : stepDedupKey y ∈ seen
      · have hmem : stepDedupKey y ∈ k :: seen := List.mem_cons_of_mem _ hs
        rw [dedupRec, if_pos hmem, dedupRec, if_pos hs]
        exact ih seen
      · have hmem : stepDedupKey y ∉ k :: seen := by
          simp only [List.mem_cons]
          rintro (hc | hc)
          · exact hk hc
          · exact hs hc
        rw [dedupRec, if_neg hmem, dedupRec, if_neg hs]
        refine congrArg _ ?_
        calc dedupRec (stepDedupKey y :: k :: seen) rest
            = dedupRec (k :: stepDedupKey y :: seen) rest := by
              refine dedupRec_congr _ _ _ ?_
              intro a
              simp only [List.mem_cons]
              tauto
          _ = dedupRec (stepDedupKey y :: seen)
                (rest.filter (fun z => decide (stepDedupKey z ≠ k))) := ih _

theorem dedupRec_nil_eq_firstOcc (l : List Str) :
    dedupRec [] l = firstOccByKey l := by
  generalize hn : l.length = n
  induction n using Nat.strong_induction_on generalizing l with
  | _ n ih =>
    match l, hn with
    | [], _ => simp [dedupRec, firstOccByKey]
    | x :: rest, hn =>
      rw [firstOccByKey, dedupRec, if_neg (List.not_mem_nil _), dedupRec_cons_seen]
      refine congrArg _ ?_
      refine ih _ ?_ _ rfl
      subst hn
      simp only [List.length_cons]
      exact Nat.lt_succ_of_le (List.length_filter_le _ _)

theorem dedupSteps_eq_firstOccByKey (l : List Str) :
    dedupSteps l = firstOccByKey l := by
  rw [dedupSteps_eq_dedupRec, dedupRec_nil_eq_firstOcc]

/-! ## Lemmas: non-emptiness of extracted steps -/

theorem extract_resolution_steps_ne_nil (resolutions : List ResData)
    (h : allSteps resolutions ≠ []) : extract_resolution_steps resolutions ≠ [] := by
  obtain ⟨x, rest, hx⟩ := List.exists_cons_of_ne_nil h
  rw [extract_resolution_steps, hx, dedupSteps_eq_dedupRec, dedupRec,
    if_neg (List.not_mem_nil _)]
  simp

theorem allSteps_ne_nil_of_head (resolutions : List ResData) (r0 : ResData)
    (hhead : resolutions.head? = some r0) (hlen : 20 < r0.resolution.length) :
    allSteps resolutions ≠ [] := by
  rw [allSteps]
  split_ifs with h1 h2
  · exact h1
  · exact h2
  · rw [fallbackSteps, hhead]
    have hne : r0.resolution ≠ [] := by
      intro hc
      rw [hc] at hlen
      simp at hlen
    simp [hne, hlen]

/-! ## Claims C1, C2, C5, C7 -/

/-- The single-incident input of spec Example scenario A / claim C1. -/
def scenarioAResolutions : List ResData :=
  [⟨some (str "INC1"), str "Reset password. Cleared cache. Verified access.", none⟩]

/-- C1 counterexample: on the scenario-A resolution text the extractor does
not return `["Reset password", "Clear cache", "Verify access"]` — every
sentence fragment, once stripped of its trailing period, is at most 15
characters long, so the sentence-splitting pass discards all of them. -/
theorem C1_counterexample :
    extract_resolution_steps scenarioAResolutions ≠
      [str "Reset password", str "Clear cache", str "Verify access"] := by decide

/-- C1 (amended): on the scenario-A input the extractor falls through to the
degenerate five-step generic template built around the (imperative-normalised)
full resolution text. -/
theorem C1_scenarioA_steps :
    extract_resolution_steps scenarioAResolutions =
      [ str "Identify and verify the symptoms of the reported issue",
        str "Follow these resolution steps: Reset password. Cleared cache. Verified access.",
        str "Test the solution to confirm the issue is resolved",
        str "Verify all affected systems/services are functioning normally",
        str "Document the resolution and close the incident ticket" ] := by decide

/-- An analysis record with every key at its read-default. -/
def analysisEmpty : Analysis := ⟨[], [], 0, none⟩

/-- An incident dict with no keys at all. -/
def bareIncident : Incident := ⟨none, none, none, none, none, none, none, none⟩

/-- An incident with a resolution text longer than 20 characters. -/
def demoIncident : Incident :=
  { number := some (str "INC100")
    short_description := some (str "Printer offline")
    description := none
    resolution_notes := some (str "Restarted the print spooler service")
    close_notes := none
    category := none
    subcategory := none
    priority := none }

/-- C2 (amended): below the configured minimum `generate_sop` returns no
document; at or above it, it returns a document whose steps list is the
extractor's output on the members' collected resolution texts, and that list
is non-empty whenever the first collected resolution text is longer than 20
characters (the degenerate five-step fallback guarantees this).  (It is *not*
non-empty for every cluster: see the counterexample, where no member has any
resolution text.) -/
theorem C2_generate_sop_gate (min_incidents : Nat) (cluster_id : Int)
    (incidents : List Incident) (analysis : Analysis) :
    (incidents.length < min_incidents →
      generate_sop min_incidents cluster_id incidents analysis = none) ∧
    (min_incidents ≤ incidents.length →
      ∃ d, generate_sop min_incidents cluster_id incidents analysis = some d ∧
        d.resolution_steps = extract_resolution_steps (collectResolutions incidents) ∧
        (∀ r0, (collectResolutions incidents).head? = some r0 →
          20 < r0.resolution.length → d.resolution_steps ≠ [])) := by
  constructor
  · intro h
    rw [generate_sop]
    simp [h]
  · intro h
    have hnot : ¬ incidents.length < min_incidents := Nat.not_lt.mpr h
    refine ⟨extract_sop_components incidents analysis, ?_, rfl, ?_⟩
    · rw [generate_sop]
      simp [hnot]
    · intro r0 hhead hlen
      exact extract_resolution_steps_ne_nil _ (allSteps_ne_nil_of_head _ r0 hhead hlen)

/-- C2 witness: a three-incident cluster with a long resolution text gets a
document with non-empty steps. -/
theorem C2_witness :
    ∃ d, generate_sop 3 0 [demoIncident, demoIncident, demoIncident] analysisEmpty =
        some d ∧ d.resolution_steps ≠ [] := by
  obtain ⟨d, hd, _, hsteps⟩ :=
    (C2_generate_sop_gate 3 0 [demoIncident, demoIncident, demoIncident]
      analysisEmpty).2 (by decide)
  exact ⟨d, hd,
    hsteps ⟨some (str "INC100"), str "Restarted the print spooler service", none⟩
      (by decide) (by decide)⟩

/-- C2 counterexample: a cluster of three incidents with no resolution texts
meets the minimum, so a document is produced — but its resolution-steps list
is empty, contradicting the claim that it is non-empty for every cluster at or
above the minimum. -/
theorem C2_counterexample :
    generate_sop 3 0 [bareIncident, bareIncident, bareIncident] analysisEmpty ≠ none ∧
    Option.map SopData.resolution_steps
      (generate_sop 3 0 [bareIncident, bareIncident, bareIncident] analysisEmpty) =
      some [] := by decide

set_option maxRecDepth 8192 in
/-- C5 counterexample: two marker-prefixed variants sharing the 50-character
dedup key — the extractor keeps the *first* (here: shorter) variant, not the
longest; and a step that collapsed two raw variants is not ranked before a
step that occurred once — output order is first-occurrence order. -/
theorem C5_counterexample :
    stepDedupKey (str "Press the reset button on the router for ten seconds.") =
      stepDedupKey
        (str "Press the reset button on the router for ten seconds and then reconnect.") ∧
    (str "Press the reset button on the router for ten seconds.").length <
      (str "Press the reset button on the router for ten seconds and then reconnect.").length ∧
    extract_resolution_steps
      [⟨none,
        str "- Press the reset button on the router for ten seconds\n- Press the reset button on the router for ten seconds and then reconnect",
        none⟩] =
      [str "Press the reset button on the router for ten seconds."] ∧
    extract_resolution_steps
      [⟨none,
        str "- Press the reset button on the router for ten seconds\n- Restart the router and verify the connection\n- Restart the router and verify the connection",
        none⟩] =
      [ str "Press the reset button on the router for ten seconds.",
        str "Restart the router and verify the connection." ] := by decide

/-- C5 (amended): among candidate steps sharing a dedup key the
first-encountered variant is the one kept (regardless of length), and the
retained unique steps appear in first-occurrence order (no frequency
ranking) before truncation to the cap. -/
theorem C5_dedup_keeps_first_occurrence (all_steps : List Str) :
    dedupSteps all_steps = firstOccByKey all_steps :=
  dedupSteps_eq_firstOccByKey all_steps

/-- C7: the extractor is a deterministic function of its input (it is a pure
function of the resolution list), and no two steps it returns share a
lower-cased 50-character dedup key. -/
theorem C7_extract_deterministic_distinct_keys (resolutions : List ResData) :
    extract_resolution_steps resolutions = extract_resolution_steps resolutions ∧
    (extract_resolution_steps resolutions).Pairwise
      (fun a b => stepDedupKey a ≠ stepDedupKey b) := by
  refine ⟨rfl, ?_⟩
  rw [extract_resolution_steps, dedupSteps_eq_dedupRec]
  exact List.Pairwise.sublist (List.take_sublist _ _) (dedupRec_pairwise _ _)

/-! ## Claim C9 -/

theorem featureText_eq_spec (incident : Incident) :
    featureText incident = spec_embedding_text incident := by
  rw [featureText, spec_embedding_text]
  by_cases h1 : getS incident.short_description ≠ [] <;>
  by_cases h2 : getS incident.description ≠ [] <;>
  by_cases h3 : resolutionText incident ≠ [] <;>
  by_cases h4 : getS incident.category ≠ [] <;>
  by_cases h5 : getS incident.subcategory ≠ [] <;>
  simp [h1, h2, h3, h4, h5, List.filter]

/-- C9: for every incident, the text handed to the embedding model is exactly
the labeled segments Problem / Details / Resolution (resolution_notes with
close_notes fallback) / Category / Subcategory in that fixed order, each
segment omitted when its source field is empty, joined by the separator, and
the sentinel text is used when every segment is empty. -/
theorem C9_embedding_text (incidents : List Incident) :
    extract_features incidents = incidents.map spec_embedding_text := by
  induction incidents with
  | nil => rfl
  | cons inc rest ih =>
    simp only [extract_features, List.map_cons]
    rw [featureText_eq_spec]
    simp only [extract_features] at ih
    rw [ih]

/-! ## Lemmas: the cluster grouping -/

/-- The incidents of `pairs` carrying label `l`, in input order: what the
grouping loop accumulates for cluster `l`. -/
def memOf (l : Int) (pairs : List (Incident × Int)) : List Incident :=
  (pairs.filter (fun p => p.2 = l)).map Prod.fst

/-- The cluster ids present in a grouping accumulator. -/
def clusterKeys (cs : List (Int × List Incident)) : List Int := cs.map Prod.fst

theorem addToCluster_lookup (k : Int) (inc : Incident) :
    ∀ (cs : List (Int × List Incident)) (l : Int),
      List.lookup l (addToCluster cs k inc) =
        if l = k then
          match List.lookup l cs with
          | some ms => some (ms ++ [inc])
          | none => some [inc]
        else List.lookup l cs := by
  intro cs
  induction cs with
  | nil =>
    intro l
    by_cases h : l = k
    · simp [addToCluster, List.lookup, h]
    · simp [addToCluster, List.lookup, h, beq_false_of_ne h]
  | cons hd rest ih =>
    intro l
    obtain ⟨k0, ms⟩ := hd
    by_cases hk : k0 = k
    · subst hk
      rw [addToCluster, if_pos rfl]
      by_cases hl : l = k0
      · subst hl
        simp [List.lookup]
      · simp [List.lookup, hl, beq_false_of_ne hl]
    · rw [addToCluster, if_neg hk]
      by_cases hl : l = k0
      · subst hl
        have hlk : ¬ l = k := hk
        simp [List.lookup, hlk]
      · simp [List.lookup, beq_false_of_ne hl, ih l]

theorem catFoldl_lookup :
    ∀ (pairs : List (Incident × Int)) (cs : List (Int × List Incident)) (l : Int),
      l ≠ -1 →
      List.lookup l (pairs.foldl catStep cs) =
        match List.lookup l cs with
        | some ms => some (ms ++ memOf l pairs)
        | none => if memOf l pairs = [] then none else some (memOf l pairs) := by
  intro pairs
  induction pairs with
  | nil =>
    intro cs l _
    match h : List.lookup l cs with
    | some ms => simp [memOf, h]
    | none => simp [memOf, h]
  | cons p rest ih =>
    intro cs l hl
    obtain ⟨inc, lab⟩ := p
    rw [List.foldl_cons]
    by_cases hlab : lab = -1
    · have hskip : catStep cs (inc, lab) = cs := by simp [catStep, hlab]
      have hm : memOf l ((inc, lab) :: rest) = memOf l rest := by
        have : ¬ lab = l := by
          intro hc
          exact hl (by rw [← hc, hlab])
        simp [memOf, List.filter_cons, this]
      rw [hskip, hm, ih cs l hl]
    · have hstep : catStep cs (inc, lab) = addToCluster cs lab inc := by
        simp [catStep, hlab]
      rw [hstep]
      by_cases hll : lab = l
      · subst hll
        have hm : memOf lab ((inc, lab) :: rest) = inc :: memOf lab rest := by
          simp [memOf, List.filter_cons]
        rw [hm, ih (addToCluster cs lab inc) lab hl, addToCluster_lookup, if_pos rfl]
        match hcs : List.lookup lab cs with
        | some ms => simp [List.append_assoc]
        | none => simp
      · have hm : memOf l ((inc, lab) :: rest) = memOf l rest := by
          simp [memOf, List.filter_cons, hll]
        rw [hm, ih (addToCluster cs lab inc) l hl, addToCluster_lookup,
          if_neg (fun hc => hll hc.symm)]

theorem addToCluster_keys (k : Int) (inc : Incident) :
    ∀ cs : List (Int × List Incident),
      clusterKeys (addToCluster cs k inc) =
        if k ∈ clusterKeys cs then clusterKeys cs else clusterKeys cs ++ [k] := by
  intro cs
  induction cs with
  | nil => simp [addToCluster, clusterKeys]
  | cons hd rest ih =>
    obtain ⟨k0, ms⟩ := hd
    by_cases hk : k0 = k
    · subst hk
      rw [addToCluster, if_pos rfl]
      simp [clusterKeys]
    · rw [addToCluster, if_neg hk]
      have hne : ¬ k = k0 := fun hc => hk hc.symm
      simp only [clusterKeys, List.map_cons] at ih ⊢
      rw [ih]
      by_cases hmem : k ∈ List.map Prod.fst rest
      · simp [hmem, hne]
      · simp [hmem, hne]

theorem catFoldl_keys :
    ∀ (pairs : List (Incident × Int)) (cs : List (Int × List Incident)),
      (clusterKeys cs).Nodup → (∀ k ∈ clusterKeys cs, k ≠ -1) →
      (clusterKeys (pairs.foldl catStep cs)).Nodup ∧
        (∀ k ∈ clusterKeys (pairs.foldl catStep cs), k ≠ -1) := by
  intro pairs
  induction pairs with
  | nil => intro cs h1 h2; exact ⟨h1, h2⟩
  | cons p rest ih =>
    intro cs h1 h2
    obtain ⟨inc, lab⟩ := p
    rw [List.foldl_cons]
    by_cases hlab : lab = -1
    · have hskip : catStep cs (inc, lab) = cs := by simp [catStep, hlab]
      rw [hskip]
      exact ih cs h1 h2
    · have hstep : catStep cs (inc, lab) = addToCluster cs lab inc := by
        simp [catStep, hlab]
      rw [hstep]
      refine ih _ ?_ ?_
      · rw [addToCluster_keys]
        by_cases hmem : lab ∈ clusterKeys cs
        · rwa [if_pos hmem]
        · rw [if_neg hmem]
          simp [List.nodup_append, h1, hmem]
      · rw [addToCluster_keys]
        by_cases hmem : lab ∈ clusterKeys cs
        · rw [if_pos hmem]; exact h2
        · rw [if_neg hmem]
          intro k hk
          rcases List.mem_append.mp hk with hk1 | hk1
          · exact h2 k hk1
          · rw [List.mem_singleton.mp hk1]; exact hlab

theorem lookup_eq_of_mem_of_nodup :
    ∀ (cs : List (Int × List Incident)) (l : Int) (ms : List Incident),
      (clusterKeys cs).Nodup → (l, ms) ∈ cs → List.lookup l cs = some ms := by
  intro cs
  induction cs with
  | nil => intro l ms _ hmem; simp at hmem
  | cons hd rest ih =>
    intro l ms hnd hmem
    obtain ⟨k0, ms0⟩ := hd
    rcases List.mem_cons.mp hmem with heq | hmem1
    · injection heq with h1 h2
      subst h1
      subst h2
      simp [List.lookup]
    · have hl : l ≠ k0 := by
        intro hc
        subst hc
        have : l ∈ clusterKeys rest :=
          List.mem_map.mpr ⟨(l, ms), hmem1, rfl⟩
        have hnot := (List.nodup_cons.mp hnd).1
        exact hnot this
      simp only [List.lookup, beq_false_of_ne hl]
      exact ih l ms (List.nodup_cons.mp hnd).2 hmem1

theorem categorizeGroups_keys (pairs : List (Incident × Int)) :
    (clusterKeys (categorizeGroups pairs)).Nodup ∧
      (∀ k ∈ clusterKeys (categorizeGroups pairs), k ≠ -1) :=
  catFoldl_keys pairs [] (by simp [clusterKeys]) (by simp [clusterKeys])

/-- Every cluster produced by the grouping loop is exactly the (non-empty)
list of batch incidents carrying its label, in input order. -/
theorem categorizeGroups_mem (pairs : List (Incident × Int)) (l : Int)
    (ms : List Incident) (h : (l, ms) ∈ categorizeGroups pairs) :
    l ≠ -1 ∧ ms = memOf l pairs ∧ ms ≠ [] := by
  have hkeys := categorizeGroups_keys pairs
  have hl : l ≠ -1 := by
    refine hkeys.2 l ?_
    exact List.mem_map.mpr ⟨(l, ms), h, rfl⟩
  have hlook : List.lookup l (categorizeGroups pairs) = some ms :=
    lookup_eq_of_mem_of_nodup _ l ms hkeys.1 h
  rw [categorizeGroups, catFoldl_lookup pairs [] l hl] at hlook
  have hlook2 :
      (if memOf l pairs = [] then none else some (memOf l pairs)) = some ms := hlook
  by_cases hm : memOf l pairs = []
  · rw [if_pos hm] at hlook2
    exact absurd hlook2 (by simp)
  · rw [if_neg hm] at hlook2
    have hms : memOf l pairs = ms := Option.some.inj hlook2
    exact ⟨hl, hms.symm, hms ▸ hm⟩

theorem addToCluster_flatten (k : Int) (inc : Incident) :
    ∀ cs : List (Int × List Incident),
      ((addToCluster cs k inc).map Prod.snd).flatten.Perm
        ((cs.map Prod.snd).flatten ++ [inc]) := by
  intro cs
  induction cs with
  | nil => simp [addToCluster]
  | cons hd rest ih =>
    obtain ⟨k0, ms⟩ := hd
    by_cases hk : k0 = k
    · rw [addToCluster, if_pos hk]
      simp only [List.map_cons, List.flatten_cons]
      rw [List.append_assoc, List.append_assoc]
      exact List.Perm.append_left ms List.perm_append_comm
    · rw [addToCluster, if_neg hk]
      simp only [List.map_cons, List.flatten_cons]
      rw [List.append_assoc]
      exact List.Perm.append_left ms ih

/-- The non-noise incidents of an input batch, in input order. -/
def nonNoiseIncidents (pairs : List (Incident × Int)) : List Incident :=
  (pairs.filter (fun p => p.2 ≠ -1)).map Prod.fst

theorem catFoldl_flatten :
    ∀ (pairs : List (Incident × Int)) (cs : List (Int × List Incident)),
      ((pairs.foldl catStep cs).map Prod.snd).flatten.Perm
        ((cs.map Prod.snd).flatten ++ nonNoiseIncidents pairs) := by
  intro pairs
  induction pairs with
  | nil => intro cs; simp [nonNoiseIncidents]
  | cons p rest ih =>
    intro cs
    obtain ⟨inc, lab⟩ := p
    rw [List.foldl_cons]
    by_cases hlab : lab = -1
    · have hskip : catStep cs (inc, lab) = cs := by simp [catStep, hlab]
      have hnn : nonNoiseIncidents ((inc, lab) :: rest) = nonNoiseIncidents rest := by
        simp [nonNoiseIncidents, List.filter_cons, hlab]
      rw [hskip, hnn]
      exact ih cs
    · have hstep : catStep cs (inc, lab) = addToCluster cs lab inc := by
        simp [catStep, hlab]
      have hnn : nonNoiseIncidents ((inc, lab) :: rest) =
          inc :: nonNoiseIncidents rest := by
        simp [nonNoiseIncidents, List.filter_cons, hlab]
      rw [hstep, hnn]
      refine (ih _).trans ?_
      have heq : ((cs.map Prod.snd).flatten ++ [inc]) ++ nonNoiseIncidents rest =
          (cs.map Prod.snd).flatten ++ (inc :: nonNoiseIncidents rest) := by
        rw [List.append_assoc]
        rfl
      rw [← heq]
      exact List.Perm.append_right _ (addToCluster_flatten lab inc cs)

/-- C8: for any batch and any clustering label vector, the grouping has
pairwise distinct cluster ids, none of which is the noise sentinel `-1`; each
cluster's member list consists exactly of the incidents labelled with its id,
in input order; and the concatenation of all member lists plus the
noise-labelled incidents is a permutation of the batch (every position counted
exactly once, so every non-noise incident lands in exactly one cluster). -/
theorem C8_cluster_partition (incidents : List Incident) (labels : List Int)
    (hlen : labels.length = incidents.length) :
    (clusterKeys (categorizeGroups (incidents.zip labels))).Nodup ∧
    (∀ p ∈ categorizeGroups (incidents.zip labels),
      p.1 ≠ -1 ∧ p.2 = memOf p.1 (incidents.zip labels)) ∧
    (((categorizeGroups (incidents.zip labels)).map Prod.snd).flatten ++
        noiseIncidents (incidents.zip labels)).Perm incidents := by
  refine ⟨(categorizeGroups_keys _).1, ?_, ?_⟩
  · intro p hp
    obtain ⟨h1, h2, _⟩ := categorizeGroups_mem (incidents.zip labels) p.1 p.2 hp
    exact ⟨h1, h2⟩
  · have hjoin := catFoldl_flatten (incidents.zip labels) []
    simp only [List.map_nil, List.flatten_nil, List.nil_append] at hjoin
    have hpred : (fun x : Incident × Int => !decide (x.2 ≠ -1)) =
        (fun x : Incident × Int => decide (x.2 = -1)) := by
      funext x
      by_cases hx : x.2 = -1 <;> simp [hx]
    have hfp := List.filter_append_perm
      (fun p : Incident × Int => decide (p.2 ≠ -1)) (incidents.zip labels)
    rw [hpred] at hfp
    have hsplit : (nonNoiseIncidents (incidents.zip labels) ++
        noiseIncidents (incidents.zip labels)).Perm
          ((incidents.zip labels).map Prod.fst) := by
      have hmapped := hfp.map Prod.fst
      simpa [nonNoiseIncidents, noiseIncidents] using hmapped
    have hfst : (incidents.zip labels).map Prod.fst = incidents :=
      List.map_fst_zip incidents labels (le_of_eq hlen.symm)
    refine (List.Perm.append_right _ hjoin).trans (hsplit.trans ?_)
    rw [hfst]

/-- C8 witness: a concrete three-incident batch with labels `[0, -1, 0]`. -/
theorem C8_witness :
    (((categorizeGroups ([demoIncident, bareIncident, demoIncident].zip
        [0, -1, 0])).map Prod.snd).flatten ++
      noiseIncidents ([demoIncident, bareIncident, demoIncident].zip
        [0, -1, 0])).Perm [demoIncident, bareIncident, demoIncident] :=
  (C8_cluster_partition [demoIncident, bareIncident, demoIncident] [0, -1, 0]
    (by decide)).2.2

/-! ## Lemmas: the representative incident (claim C4) -/

theorem argmaxAux_eq_or_lt :
    ∀ (l : List ℚ) (i best : Nat) (v : ℚ),
      argmaxAux l i best v = best ∨ argmaxAux l i best v < i + l.length := by
  intro l
  induction l with
  | nil => intro i best v; left; rfl
  | cons x rest ih =>
    intro i best v
    rw [argmaxAux]
    by_cases h : v < x
    · rw [if_pos h]
      right
      rcases ih (i + 1) i x with h1 | h1 <;>
        simp only [List.length_cons] <;> omega
    · rw [if_neg h]
      rcases ih (i + 1) best v with h1 | h1
      · left; exact h1
      · right
        simp only [List.length_cons]
        omega

theorem argmaxIdx_lt (l : List ℚ) (h : l ≠ []) : argmaxIdx l < l.length := by
  match l with
  | x :: rest =>
    rw [argmaxIdx]
    rcases argmaxAux_eq_or_lt rest 1 0 x with h1 | h1 <;>
      simp only [List.length_cons] <;> omega

theorem length_filter_enum {α : Type} (l : List α) (q : α → Bool) :
    (l.enum.filter (fun p => q p.2)).length = (l.filter q).length := by
  have h1 : (l.enum.map Prod.snd).filter q =
      (l.enum.filter (q ∘ Prod.snd)).map Prod.snd := List.filter_map Prod.snd l.enum
  rw [List.enum_map_snd] at h1
  have h2 : (fun p : Nat × α => q p.2) = (q ∘ Prod.snd) := rfl
  rw [h2, ← List.length_map (l.enum.filter (q ∘ Prod.snd)) Prod.snd, ← h1]

theorem enum_filter_ne_nil {α : Type} (l : List α) (q : α → Bool) (m : α)
    (hm : m ∈ l) (hq : q m = true) : l.enum.filter (fun p => q p.2) ≠ [] := by
  intro hc
  have hmem : m ∈ l.enum.map Prod.snd := by rw [List.enum_map_snd]; exact hm
  obtain ⟨p, hp, hpm⟩ := List.mem_map.mp hmem
  have := List.filter_eq_nil_iff.mp hc p hp
  rw [hpm, hq] at this
  exact this rfl

theorem length_filter_mem_le (batch members : List Incident) (hnd : batch.Nodup) :
    (batch.filter (fun m => decide (m ∈ members))).length ≤ members.length := by
  have hsub : batch.filter (fun m => decide (m ∈ members)) ⊆ members := by
    intro x hx
    exact of_decide_eq_true (List.mem_filter.mp hx).2
  exact (List.subperm_of_subset (hnd.filter _) hsub).length_le

theorem clusterIndices_ne_nil (batch members : List Incident) (m : Incident)
    (hm : m ∈ members) (hmb : m ∈ batch) : clusterIndices batch members ≠ [] := by
  rw [clusterIndices]
  intro hc
  rw [List.map_eq_nil_iff] at hc
  exact enum_filter_ne_nil batch (fun x => decide (x ∈ members)) m hmb
    (decide_eq_true hm) hc

theorem clusterIndices_length_le (batch members : List Incident)
    (hnd : batch.Nodup) :
    (clusterIndices batch members).length ≤ members.length := by
  rw [clusterIndices, List.length_map,
    length_filter_enum batch (fun m => decide (m ∈ members))]
  exact length_filter_mem_le batch members hnd

theorem closestIdx_lt (embs : List (List ℚ)) (indices : List Nat)
    (h : indices ≠ []) : closestIdx embs indices < indices.length := by
  rw [closestIdx]
  have hne : ((clusterEmbeddings embs indices).map
      (fun e => dotL e (vecMean (clusterEmbeddings embs indices)))) ≠ [] := by
    simp [clusterEmbeddings, h]
  have hlt := argmaxIdx_lt _ hne
  simpa [clusterEmbeddings] using hlt

/-- C4: for every cluster produced by the grouping of `categorize_incidents`
(on a duplicate-free batch, with the embeddings the run stored), the
`representative_incident` reported by `analyze_cluster` is the incident number
of an element of that same cluster's member list. -/
theorem C4_representative_in_cluster (batch : List Incident) (labels : List Int)
    (E : List (List ℚ)) (l : Int) (members : List Incident)
    (hlen : labels.length = batch.length) (hnd : batch.Nodup)
    (hmem : (l, members) ∈ categorizeGroups (batch.zip labels)) :
    ∃ inc ∈ members,
      analyze_cluster_representative batch (some E) members = inc.number := by
  obtain ⟨hl, hms, hne⟩ := categorizeGroups_mem _ _ _ hmem
  have hsub : members ⊆ batch := by
    rw [hms, memOf]
    intro x hx
    obtain ⟨p, hp, hpx⟩ := List.mem_map.mp hx
    obtain ⟨x0, lab0⟩ := p
    have hp2 : (x0, lab0) ∈ batch.zip labels := List.mem_of_mem_filter hp
    have hz := List.of_mem_zip hp2
    exact hpx ▸ hz.1
  obtain ⟨m, hm⟩ := List.exists_mem_of_ne_nil members hne
  have hidx_ne : clusterIndices batch members ≠ [] :=
    clusterIndices_ne_nil batch members m hm (hsub hm)
  have hclt : closestIdx E (clusterIndices batch members) < members.length :=
    lt_of_lt_of_le (closestIdx_lt E _ hidx_ne)
      (clusterIndices_length_le batch members hnd)
  have hrep : get_representative_incident batch (some E) members =
      some (members.get ⟨_, hclt⟩) := by
    rw [get_representative_incident, if_neg hne, if_neg hidx_ne]
    exact List.get?_eq_get hclt
  refine ⟨members.get ⟨_, hclt⟩, List.get_mem members _ _, ?_⟩
  rw [analyze_cluster_representative, hrep]

/-- C4 witness: a two-incident batch clustered into one cluster; the reported
representative number is the number of a member. -/
theorem C4_witness :
    ∃ inc ∈ [demoIncident, bareIncident],
      analyze_cluster_representative [demoIncident, bareIncident]
        (some [[1], [0]]) [demoIncident, bareIncident] = inc.number :=
  C4_representative_in_cluster [demoIncident, bareIncident] [0, 0] [[1], [0]] 0
    [demoIncident, bareIncident] (by decide) (by decide) (by decide)

/-! ## Lemmas: retrieval (claims C3, C6, C10) -/

theorem insertDesc_mem (sims : List ℚ) (i : Nat) :
    ∀ (l : List Nat) (j : Nat), j ∈ insertDesc sims i l → j = i ∨ j ∈ l := by
  intro l
  induction l with
  | nil =>
    intro j hj
    rw [insertDesc] at hj
    exact Or.inl (List.mem_singleton.mp hj)
  | cons k rest ih =>
    intro j hj
    rw [insertDesc] at hj
    by_cases h : sims.getD k 0 ≤ sims.getD i 0
    · rw [if_pos h] at hj
      rcases List.mem_cons.mp hj with h1 | h1
      · exact Or.inl h1
      · exact Or.inr h1
    · rw [if_neg h] at hj
      rcases List.mem_cons.mp hj with h1 | h1
      · exact Or.inr (h1 ▸ List.mem_cons_self k rest)
      · rcases ih j h1 with h2 | h2
        · exact Or.inl h2
        · exact Or.inr (List.mem_cons_of_mem k h2)

theorem argsortDesc_mem_lt (sims : List ℚ) (i : Nat)
    (h : i ∈ argsortDesc sims) : i < sims.length := by
  rw [argsortDesc] at h
  have hfold : ∀ idxs : List Nat, ∀ j,
      j ∈ idxs.foldr (insertDesc sims) [] → j ∈ idxs := by
    intro idxs
    induction idxs with
    | nil => intro j hj; simpa using hj
    | cons k rest ih =>
      intro j hj
      rw [List.foldr_cons] at hj
      rcases insertDesc_mem sims k _ j hj with h1 | h1
      · exact h1 ▸ List.mem_cons_self k rest
      · exact List.mem_cons_of_mem k (ih j h1)
  exact List.mem_range.mp (hfold _ i h)

theorem fsiStep_mem (kb : List Incident) (sims : List ℚ) (category : Option Str)
    (min_similarity : ℚ) (acc : List Scored) (i : Nat) (r : Scored)
    (hr : r ∈ fsiStep kb sims category min_similarity acc i) :
    r ∈ acc ∨ (kb.get? i = some r.incident ∧ sims.getD i 0 = r.similarity_score ∧
      min_similarity ≤ r.similarity_score) := by
  rw [fsiStep] at hr
  by_cases hf : min_similarity ≤ sims.getD i 0
  · rw [if_pos hf] at hr
    cases hkb : kb.get? i with
    | none => rw [hkb] at hr; exact Or.inl hr
    | some incident =>
      rw [hkb] at hr
      cases category with
      | none =>
        have hr2 : r ∈ acc ++ [(⟨incident, sims.getD i 0⟩ : Scored)] := hr
        rcases List.mem_append.mp hr2 with h1 | h1
        · exact Or.inl h1
        · right
          rw [List.mem_singleton.mp h1]
          exact ⟨rfl, rfl, hf⟩
      | some c =>
        have hr2 : r ∈ (if lowerStr (getS incident.category) = lowerStr c then
            acc ++ [(⟨incident, sims.getD i 0⟩ : Scored)] else acc) := hr
        by_cases hc : lowerStr (getS incident.category) = lowerStr c
        · rw [if_pos hc] at hr2
          rcases List.mem_append.mp hr2 with h1 | h1
          · exact Or.inl h1
          · right
            rw [List.mem_singleton.mp h1]
            exact ⟨rfl, rfl, hf⟩
        · rw [if_neg hc] at hr2
          exact Or.inl hr2
  · rw [if_neg hf] at hr
    exact Or.inl hr

theorem fsiFold_mem (kb : List Incident) (sims : List ℚ) (category : Option Str)
    (min_similarity : ℚ) :
    ∀ (idxs : List Nat) (acc : List Scored) (r : Scored),
      r ∈ idxs.foldl (fsiStep kb sims category min_similarity) acc →
      r ∈ acc ∨ ∃ i ∈ idxs, kb.get? i = some r.incident ∧
        sims.getD i 0 = r.similarity_score ∧
        min_similarity ≤ r.similarity_score := by
  intro idxs
  induction idxs with
  | nil => intro acc r hr; exact Or.inl hr
  | cons i rest ih =>
    intro acc r hr
    rw [List.foldl_cons] at hr
    rcases ih _ r hr with h1 | ⟨i1, hi1, hprops⟩
    · rcases fsiStep_mem kb sims category min_similarity acc i r h1 with h2 | h2
      · exact Or.inl h2
      · exact Or.inr ⟨i, List.mem_cons_self i rest, h2⟩
    · exact Or.inr ⟨i1, List.mem_cons_of_mem i hi1, hprops⟩

theorem fsiFold_sublist (kb : List Incident) (sims : List ℚ)
    (category : Option Str) (f1 f2 : ℚ) (hf : f1 ≤ f2) :
    ∀ (idxs : List Nat) (acc1 acc2 : List Scored), acc2.Sublist acc1 →
      (idxs.foldl (fsiStep kb sims category f2) acc2).Sublist
        (idxs.foldl (fsiStep kb sims category f1) acc1) := by
  intro idxs
  induction idxs with
  | nil => intro a1 a2 h; exact h
  | cons i rest ih =>
    intro a1 a2 h
    rw [List.foldl_cons, List.foldl_cons]
    refine ih _ _ ?_
    rw [fsiStep, fsiStep]
    by_cases h2 : f2 ≤ sims.getD i 0
    · have h1 : f1 ≤ sims.getD i 0 := le_trans hf h2
      rw [if_pos h2, if_pos h1]
      cases hkb : kb.get? i with
      | none => exact h
      | some incident =>
        cases category with
        | none =>
          show (a2 ++ [(⟨incident, sims.getD i 0⟩ : Scored)]).Sublist
            (a1 ++ [(⟨incident, sims.getD i 0⟩ : Scored)])
          exact h.append (List.Sublist.refl _)
        | some c =>
          show (if lowerStr (getS incident.category) = lowerStr c then
              a2 ++ [(⟨incident, sims.getD i 0⟩ : Scored)] else a2).Sublist
            (if lowerStr (getS incident.category) = lowerStr c then
              a1 ++ [(⟨incident, sims.getD i 0⟩ : Scored)] else a1)
          by_cases hc : lowerStr (getS incident.category) = lowerStr c
          · rw [if_pos hc, if_pos hc]
            exact h.append (List.Sublist.refl _)
          · rw [if_neg hc, if_neg hc]
            exact h
    · rw [if_neg h2]
      by_cases h1 : f1 ≤ sims.getD i 0
      · rw [if_pos h1]
        cases hkb : kb.get? i with
        | none => exact h
        | some incident =>
          cases category with
          | none =>
            show a2.Sublist (a1 ++ [(⟨incident, sims.getD i 0⟩ : Scored)])
            exact h.trans (List.sublist_append_left _ _)
          | some c =>
            show a2.Sublist (if lowerStr (getS incident.category) = lowerStr c then
              a1 ++ [(⟨incident, sims.getD i 0⟩ : Scored)] else a1)
            by_cases hc : lowerStr (getS incident.category) = lowerStr c
            · rw [if_pos hc]
              exact h.trans (List.sublist_append_left _ _)
            · rw [if_neg hc]
              exact h
      · rw [if_neg h1]
        exact h

theorem find_similar_from_index (kb : List Incident) (sims : List ℚ)
    (category : Option Str) (top_k : Nat) (min_similarity : ℚ) (r : Scored)
    (hr : r ∈ find_similar_incidents kb sims category top_k min_similarity) :
    ∃ i ∈ (argsortDesc sims).take top_k, kb.get? i = some r.incident ∧
      sims.getD i 0 = r.similarity_score ∧
      min_similarity ≤ r.similarity_score := by
  rw [find_similar_incidents] at hr
  by_cases hkb : kb = []
  · rw [if_pos hkb] at hr
    simp at hr
  · rw [if_neg hkb] at hr
    rcases fsiFold_mem kb sims category min_similarity _ [] r hr with h1 | h1
    · simp at h1
    · exact h1

theorem find_similar_floor (kb : List Incident) (sims : List ℚ)
    (category : Option Str) (top_k : Nat) (min_similarity : ℚ) (r : Scored)
    (hr : r ∈ find_similar_incidents kb sims category top_k min_similarity) :
    min_similarity ≤ r.similarity_score := by
  obtain ⟨i, _, _, _, hle⟩ :=
    find_similar_from_index kb sims category top_k min_similarity r hr
  exact hle

theorem find_similar_sublist (kb : List Incident) (sims : List ℚ)
    (category : Option Str) (top_k : Nat) (f1 f2 : ℚ) (hf : f1 ≤ f2) :
    (find_similar_incidents kb sims category top_k f2).Sublist
      (find_similar_incidents kb sims category top_k f1) := by
  rw [find_similar_incidents, find_similar_incidents]
  by_cases hkb : kb = []
  · rw [if_pos hkb, if_pos hkb]
  · rw [if_neg hkb, if_neg hkb]
    exact fsiFold_sublist kb sims category f1 f2 hf _ [] [] (List.Sublist.refl [])

theorem getD_le_one (sims : List ℚ) (i : Nat) (h : ∀ s ∈ sims, s ≤ 1) :
    sims.getD i 0 ≤ 1 := by
  by_cases hi : i < sims.length
  · rw [List.getD_eq_getElem sims 0 hi]
    exact h _ (List.getElem_mem hi)
  · rw [List.getD_eq_default sims 0 (le_of_not_lt hi)]
    norm_num

/-! ## Claims C3, C6, C10 -/

/-- A knowledge-base incident used in the concrete retrieval scenarios. -/
def ragIncidentA : Incident :=
  { number := some (str "INC200")
    short_description := some (str "VPN drops")
    description := some (str "VPN connection drops intermittently for remote users")
    resolution_notes := some (str "Reset VPN credentials and updated the client")
    close_notes := none
    category := some (str "Network")
    subcategory := none
    priority := none }

/-- A second knowledge-base incident, of category Email. -/
def ragIncidentB : Incident :=
  { number := some (str "INC201")
    short_description := some (str "Outlook crash")
    description := some (str "Outlook crashes when opening shared calendars")
    resolution_notes := some (str "Recreated the Outlook profile for the user")
    close_notes := none
    category := some (str "Email")
    subcategory := none
    priority := none }

/-- C3: retrieval never returns a match below the similarity floor; raising
the floor shrinks (or preserves) the result list (it becomes a sublist of the
lower-floor result, same query and index); and when nothing clears the floor,
`suggest_resolution` reports `success = False` with no suggested resolution. -/
theorem C3_retrieval_threshold (kb : List Incident) (sims : List ℚ)
    (category : Option Str) (top_k : Nat) (f1 f2 : ℚ) :
    (∀ r ∈ find_similar_incidents kb sims category top_k f1,
      f1 ≤ r.similarity_score) ∧
    (f1 ≤ f2 →
      (find_similar_incidents kb sims category top_k f2).Sublist
        (find_similar_incidents kb sims category top_k f1)) ∧
    (find_similar_incidents kb sims category 5 (mkRat 3 10) = [] →
      (suggest_resolution kb sims category).success = false ∧
      (suggest_resolution kb sims category).suggested_resolution = none) := by
  refine ⟨?_, ?_, ?_⟩
  · intro r hr
    exact find_similar_floor kb sims category top_k f1 r hr
  · intro hf
    exact find_similar_sublist kb sims category top_k f1 f2 hf
  · intro hempty
    rw [suggest_resolution, hempty]
    exact ⟨rfl, rfl⟩

/-- C3 witness: a one-incident index at similarity 7/10 (floor respected,
floor-raising gives a sublist) and an empty index (explicit not-found). -/
theorem C3_witness :
    (mkRat 3 10 ≤ (⟨ragIncidentA, mkRat 7 10⟩ : Scored).similarity_score) ∧
    (find_similar_incidents [ragIncidentA] [mkRat 7 10] none 5
        (mkRat 6 10)).Sublist
      (find_similar_incidents [ragIncidentA] [mkRat 7 10] none 5
        (mkRat 3 10)) ∧
    ((suggest_resolution [] [] none).success = false ∧
      (suggest_resolution [] [] none).suggested_resolution = none) :=
  ⟨(C3_retrieval_threshold [ragIncidentA] [mkRat 7 10] none 5 (mkRat 3 10) 1).1
      ⟨ragIncidentA, mkRat 7 10⟩ (by decide),
   (C3_retrieval_threshold [ragIncidentA] [mkRat 7 10] none 5 (mkRat 3 10)
      (mkRat 6 10)).2.1 (by decide),
   (C3_retrieval_threshold [] [] none 5 (mkRat 3 10) 1).2.2 (by decide)⟩

/-- C6 (amended): a successful resolution-suggestion response carries a
confidence equal to the top match's raw cosine similarity score — a value on
the 0-1 scale (at least the 0.3 floor, and at most 1 whenever every index
similarity is at most 1) — not a value on a 0-100 scale. -/
theorem C6_confidence_scale (kb : List Incident) (sims : List ℚ)
    (category : Option Str) (top : Scored) (rest : List Scored)
    (h : find_similar_incidents kb sims category 5 (mkRat 3 10) = top :: rest) :
    (suggest_resolution kb sims category).success = true ∧
    (suggest_resolution kb sims category).confidence =
      some top.similarity_score ∧
    mkRat 3 10 ≤ top.similarity_score ∧
    ((∀ s ∈ sims, s ≤ 1) → top.similarity_score ≤ 1) := by
  have htop_mem : top ∈ find_similar_incidents kb sims category 5 (mkRat 3 10) := by
    rw [h]
    exact List.mem_cons_self _ _
  refine ⟨?_, ?_, ?_, ?_⟩
  · rw [suggest_resolution, h]
  · rw [suggest_resolution, h]
  · exact find_similar_floor kb sims category 5 (mkRat 3 10) top htop_mem
  · intro hb
    obtain ⟨i, _, _, hsim, _⟩ :=
      find_similar_from_index kb sims category 5 (mkRat 3 10) top htop_mem
    rw [← hsim]
    exact getD_le_one sims i hb

/-- C6 counterexample: with a single indexed incident at similarity 1/2, the
successful response carries `confidence = 1/2` — the raw similarity also
reported in `primary_source` — and not `50`, as a 0-100 scale would demand. -/
theorem C6_counterexample :
    (suggest_resolution [ragIncidentA] [mkRat 1 2] none).success = true ∧
    (suggest_resolution [ragIncidentA] [mkRat 1 2] none).primary_source =
      some (str "INC200", mkRat 1 2,
        str "Reset VPN credentials and updated the client") ∧
    (suggest_resolution [ragIncidentA] [mkRat 1 2] none).confidence =
      some (mkRat 1 2) ∧
    (100 : ℚ) * mkRat 1 2 = 50 ∧
    ¬ (suggest_resolution [ragIncidentA] [mkRat 1 2] none).confidence =
        some (50 : ℚ) := by
  refine ⟨by decide, by decide, by decide, ?_, by decide⟩
  rw [Rat.mkRat_eq_div]
  norm_num

/-- C6 witness: the amended statement evaluated on the one-incident index. -/
theorem C6_witness :
    (suggest_resolution [ragIncidentA] [mkRat 1 2] none).success = true ∧
    (suggest_resolution [ragIncidentA] [mkRat 1 2] none).confidence =
      some ((⟨ragIncidentA, mkRat 1 2⟩ : Scored).similarity_score) ∧
    mkRat 3 10 ≤ (⟨ragIncidentA, mkRat 1 2⟩ : Scored).similarity_score ∧
    ((∀ s ∈ [mkRat 1 2], s ≤ 1) →
      (⟨ragIncidentA, mkRat 1 2⟩ : Scored).similarity_score ≤ 1) :=
  C6_confidence_scale [ragIncidentA] [mkRat 1 2] none ⟨ragIncidentA, mkRat 1 2⟩
    [] (by decide)

/-- C10: in the in-memory retrieval path with a requested category, every
returned incident comes from the `top_k` positions of the overall similarity
ranking (the category filter runs only afterwards); concretely, with an index
of a Network incident (similarity 9/10) and an Email incident (8/10),
requesting category Email with `top_k = 1` returns nothing although the Email
incident clears the floor and is returned when `top_k = 2`. -/
theorem C10_category_filter_after_topk (kb : List Incident) (sims : List ℚ)
    (category : Option Str) (top_k : Nat) (min_similarity : ℚ) :
    (∀ r ∈ find_similar_incidents kb sims category top_k min_similarity,
      ∃ i ∈ (argsortDesc sims).take top_k,
        kb.get? i = some r.incident ∧ sims.getD i 0 = r.similarity_score) ∧
    (find_similar_incidents [ragIncidentA, ragIncidentB]
        [mkRat 9 10, mkRat 8 10] (some (str "Email")) 1 (mkRat 3 10) = [] ∧
      ragIncidentB ∈ [ragIncidentA, ragIncidentB] ∧
      lowerStr (getS ragIncidentB.category) = lowerStr (str "Email") ∧
      mkRat 3 10 ≤ mkRat 8 10 ∧
      find_similar_incidents [ragIncidentA, ragIncidentB]
        [mkRat 9 10, mkRat 8 10] (some (str "Email")) 2 (mkRat 3 10) =
        [⟨ragIncidentB, mkRat 8 10⟩]) := by
  constructor
  · intro r hr
    obtain ⟨i, hi, h1, h2, _⟩ :=
      find_similar_from_index kb sims category top_k min_similarity r hr
    exact ⟨i, hi, h1, h2⟩
  · decide

/-- C10 witness: the Email incident returned with `top_k = 2` indeed comes
from the top-2 positions of the overall ranking. -/
theorem C10_witness :
    ∃ i ∈ (argsortDesc [mkRat 9 10, mkRat 8 10]).take 2,
      [ragIncidentA, ragIncidentB].get? i =
        some ((⟨ragIncidentB, mkRat 8 10⟩ : Scored).incident) ∧
      [mkRat 9 10, mkRat 8 10].getD i 0 =
        (⟨ragIncidentB, mkRat 8 10⟩ : Scored).similarity_score :=
  (C10_category_filter_after_topk [ragIncidentA, ragIncidentB]
    [mkRat 9 10, mkRat 8 10] (some (str "Email")) 2 (mkRat 3 10)).1
    ⟨ragIncidentB, mkRat 8 10⟩ (by decide)
